import Mathlib

/-!
Verification of the request/response contract of gopkgredir (main.go of
jrubin.io/gopkgredir), a vanity-import-path redirector.  The Go source is
shallowly embedded: strings become lists of characters, the HTML template
(`tpl`, main.go lines 16-27) becomes an explicit concatenation with the
contextual escaping that Go 1.6's html/template applies to it (the Makefile
pins GO_VERSION 1.6.2), the handlers (`handler`, `redirectHTTP`) become pure
functions from configuration and request data to response data, and the
lifecycle functions (`setup`, `run`) become functions from configuration and
the outcomes of the external calls they make to a record of what was bound,
logged and returned.
-/

namespace Gopkgredir

/-- Go strings modelled as lists of characters.  The Go code manipulates
strings byte-wise; on ASCII data bytes and characters coincide, and the
escaping functions below handle non-ASCII characters by escaping their UTF-8
bytes exactly as the byte-wise Go code does. -/
abbrev Str := List Char

/-- The character list of a Lean string literal, used to transcribe Go string
literals. -/
def str (s : String) : Str := s.data

/-- The `config` struct of main.go (lines 35-44). -/
structure Config where
  ImportPrefix : Str
  VCS : Str
  RepoRoot : Str
  RedirectURL : Str
  ListenAddress : Str
  TLSListenAddress : Str
  PublicTLSAddress : Str
  TLS : Bool
  deriving DecidableEq, Repr

/-- The `context` struct of main.go (lines 46-50): the embedded `config` plus
`RepoName` and a `RedirectURL` field that shadows the embedded one when the
template resolves `.RedirectURL`. -/
structure RequestContext where
  cfg : Config
  RepoName : Str
  RedirectURL : Str
  deriving DecidableEq, Repr

/-- The context construction of `handler` (main.go lines 215-227):
`pkg := strings.Split(r.URL.Path, "/")`; when the split has more than one
element, `RepoName` becomes `pkg[1]` and, when `cfg.RedirectURL` is empty,
`RedirectURL` becomes `RepoRoot + "/" + pkg[1]`.  `List.splitOn` agrees with
Go's `strings.Split` for a one-character separator. -/
def handlerContext (cfg : Config) (path : Str) : RequestContext :=
  let pkg := path.splitOn '/'
  if h : 1 < pkg.length then
    let repoName := pkg.get ⟨1, h⟩
    { cfg := cfg
      RepoName := repoName
      RedirectURL :=
        if cfg.RedirectURL.length = 0 then cfg.RepoRoot ++ str "/" ++ repoName
        else cfg.RedirectURL }
  else
    { cfg := cfg, RepoName := [], RedirectURL := cfg.RedirectURL }

/-- Go html/template's replacement for one character in a double-quoted HTML
attribute value (htmlReplacementTable of html/template: NUL to U+FFFD, and
the five HTML-special characters to numeric or named entities). -/
def attrEscChar (c : Char) : Str :=
  if c = Char.ofNat 0 then [Char.ofNat 0xFFFD]
  else if c = '"' then str "&#34;"
  else if c = '&' then str "&amp;"
  else if c = Char.ofNat 39 then str "&#39;"
  else if c = '<' then str "&lt;"
  else if c = '>' then str "&gt;"
  else [c]

/-- Go html/template's attribute escaper applied to a whole interpolated
value. -/
def attrEsc (s : Str) : Str := (s.map attrEscChar).flatten

/-- Decimal and lowercase-hex digits and their values, as Go's isHex. -/
def isHexChar (c : Char) : Bool :=
  ('0' ≤ c && c ≤ '9') || ('a' ≤ c && c ≤ 'f') || ('A' ≤ c && c ≤ 'F')

/-- ASCII letters and digits (the unreserved alphanumerics of RFC 3986). -/
def isAlphaNumChar (c : Char) : Bool :=
  ('a' ≤ c && c ≤ 'z') || ('A' ≤ c && c ≤ 'Z') || ('0' ≤ c && c ≤ '9')

/-- Lowercase hexadecimal digit of a value below 16. -/
def hexLower (n : Nat) : Char := (str "0123456789abcdef").getD n '0'

/-- Uppercase hexadecimal digit of a value below 16. -/
def hexUpper (n : Nat) : Char := (str "0123456789ABCDEF").getD n '0'

/-- The UTF-8 bytes of a character, as Go string indexing sees them. -/
def utf8Bytes (c : Char) : List Nat :=
  let n := c.toNat
  if n < 0x80 then [n]
  else if n < 0x800 then [0xC0 + n / 64, 0x80 + n % 64]
  else if n < 0x10000 then [0xE0 + n / 4096, 0x80 + (n / 64) % 64, 0x80 + n % 64]
  else [0xF0 + n / 262144, 0x80 + (n / 4096) % 64, 0x80 + (n / 64) % 64,
    0x80 + n % 64]

/-- Percent-encoding of one byte with lowercase hex, as html/template's
urlProcessor emits it. -/
def pctLower (b : Nat) : Str := ['%', hexLower (b / 16), hexLower (b % 16)]

/-- Percent-encoding of one byte with uppercase hex, as net/url's escape
emits it. -/
def pctUpper (b : Nat) : Str := ['%', hexUpper (b / 16), hexUpper (b % 16)]

/-- Percent-encoding of all UTF-8 bytes of a character, lowercase hex. -/
def pctEncChar (c : Char) : Str := ((utf8Bytes c).map pctLower).flatten

/-- The characters html/template's urlProcessor keeps verbatim when
normalizing (norm=true): alphanumerics, the RFC 3986 marks `-._~`, and the
reserved punctuation it does not re-encode. -/
def urlNormKeep (c : Char) : Bool :=
  isAlphaNumChar c || (str "-._~!#$&*+,/:;=?@[]").contains c

/-- html/template's urlNormalizer (urlProcessor with norm=true): keeps the
characters of `urlNormKeep` and any `%` that begins a valid two-digit hex
escape, and percent-encodes every other byte with lowercase hex. -/
def urlNormalize : Str → Str
  | [] => []
  | c :: rest =>
    (if urlNormKeep c then [c]
     else if c = '%' then
       match rest with
       | a :: b :: _ => if isHexChar a && isHexChar b then ['%'] else pctEncChar '%'
       | _ => pctEncChar '%'
     else pctEncChar c) ++ urlNormalize rest

/-- html/template's urlFilter: when the value has a scheme (a `:` with no
earlier `/`) other than http, https or mailto, the whole value is replaced
with `#ZgotmplZ`. -/
def urlFilter (s : Str) : Str :=
  if s.contains ':' ∧ ¬(s.takeWhile (· ≠ ':')).contains '/' then
    let protocol := (s.takeWhile (· ≠ ':')).map Char.toLower
    if protocol = str "http" ∨ protocol = str "https" ∨ protocol = str "mailto"
    then s else str "#ZgotmplZ"
  else s

/-- The full escaping pipeline html/template applies to `{{.RedirectURL}}`
inside `href="..."`: urlFilter, then urlNormalizer, then the attribute
escaper. -/
def urlAttrEsc (s : Str) : Str := attrEsc (urlNormalize (urlFilter s))

/-- Literal template text up to the go-import content (tpl, main.go 16-20). -/
def tplSeg1 : Str := str "<!DOCTYPE html>\n<html>\n<head>\n<meta http-equiv=\"Content-Type\" content=\"text/html; charset=utf-8\"/>\n<meta name=\"go-import\" content=\""

/-- Literal template text between the go-import content and the refresh url
(tpl, main.go 20-21). -/
def tplSeg2 : Str := str "\" >\n<meta http-equiv=\"refresh\" content=\"0; url="

/-- Literal template text between the refresh url and the link href (tpl,
main.go 21-24). -/
def tplSeg3 : Str := str "\">\n</head>\n<body>\nNothing to see here; <a href=\""

/-- Literal template text after the link href (tpl, main.go 24-27). -/
def tplSeg4 : Str := str "\">move along</a>.\n</body>\n</html>\n"

/-- The go-import meta content as the template interpolates it:
`{{.ImportPrefix}}/{{.RepoName}} {{.VCS}} {{.RepoRoot}}/{{.RepoName}}`, each
field escaped by the attribute escaper (tpl, main.go line 20). -/
def goImportRendered (ctx : RequestContext) : Str :=
  attrEsc ctx.cfg.ImportPrefix ++ str "/" ++ attrEsc ctx.RepoName ++ str " "
    ++ attrEsc ctx.cfg.VCS ++ str " " ++ attrEsc ctx.cfg.RepoRoot ++ str "/"
    ++ attrEsc ctx.RepoName

/-- The rendered body of the template `tpl` (main.go 16-27) for a request
context, with Go html/template's contextual escaping: the meta contents are
attribute-escaped, the href is URL-filtered, URL-normalized and
attribute-escaped. -/
def renderBody (ctx : RequestContext) : Str :=
  tplSeg1 ++ goImportRendered ctx ++ tplSeg2 ++ attrEsc ctx.RedirectURL
    ++ tplSeg3 ++ urlAttrEsc ctx.RedirectURL ++ tplSeg4

/-- The response the handler writes: the Content-Type header it sets and the
rendered body. -/
structure HandlerResponse where
  contentType : Str
  body : Str
  deriving DecidableEq, Repr

/-- The request handler (main.go lines 213-235) as a function of the
configuration and the request's URL path, the only request datum it reads. -/
def handler (cfg : Config) (path : Str) : HandlerResponse :=
  { contentType := str "text/html; charset=utf-8"
    body := renderBody (handlerContext cfg path) }

/-- net/url's shouldEscape for mode encodePath (Go 1.6): alphanumerics, the
marks `-_.~` and the reserved characters `$&+,/:;=@` stay, `?` and everything
else is escaped. -/
def shouldEscapePath (c : Char) : Bool :=
  if isAlphaNumChar c then false
  else if (str "-_.~").contains c then false
  else if (str "$&+,/:;=?@").contains c then c = '?'
  else true

/-- net/url's escape for mode encodePath, byte-wise with uppercase hex. -/
def escapePath (s : Str) : Str :=
  (s.map fun c =>
    if shouldEscapePath c then ((utf8Bytes c).map pctUpper).flatten else [c]).flatten

/-- net/url's validEncodedPath (Go 1.6): every character is a pchar
sub-delim, `[`, `]`, `%`, or one shouldEscape leaves alone. -/
def validEncodedPath (s : Str) : Bool :=
  s.all fun c =>
    (str "!$&()*+,;=:@[]%").contains c || c = Char.ofNat 39 || !shouldEscapePath c

/-- The numeric value of a hexadecimal digit. -/
def hexVal (c : Char) : Nat :=
  if '0' ≤ c && c ≤ '9' then c.toNat - 48
  else if 'a' ≤ c && c ≤ 'f' then c.toNat - 87
  else if 'A' ≤ c && c ≤ 'F' then c.toNat - 55
  else 0

/-- net/url's unescape for mode encodePath: decodes `%XX` sequences, fails on
a malformed one, leaves `+` and every other character alone. -/
def unescapePath : Str → Option Str
  | [] => some []
  | '%' :: a :: b :: rest =>
    if isHexChar a && isHexChar b then
      (unescapePath rest).map fun t => Char.ofNat (16 * hexVal a + hexVal b) :: t
    else none
  | ['%'] => none
  | ['%', _] => none
  | c :: rest => (unescapePath rest).map fun t => c :: t

/-- net/url's URL struct (Go 1.6.2) restricted to the fields a server-side
origin-form request URL can have; Opaque, User and Fragment are empty for
such requests and the code never sets them, so they are omitted. -/
structure URL where
  scheme : Str
  host : Str
  path : Str
  rawPath : Str
  rawQuery : Str
  deriving DecidableEq, Repr

/-- net/url's URL.EscapedPath (Go 1.6): the RawPath when it is a valid
encoding of Path, the literal `*`, or the escaped Path. -/
def escapedPath (u : URL) : Str :=
  if u.rawPath ≠ [] ∧ validEncodedPath u.rawPath ∧ unescapePath u.rawPath = some u.path
  then u.rawPath
  else if u.path = str "*" then str "*"
  else escapePath u.path

/-- net/url's URL.String (Go 1.6.2, with User and Opaque absent): scheme with
`:`, `//` and the host when a scheme or host is present, the escaped path
with a disambiguating `/` when it does not start with one, and `?` with the
raw query when one is present. -/
def urlString (u : URL) : Str :=
  (if u.scheme ≠ [] then u.scheme ++ str ":" else [])
    ++ (if u.scheme ≠ [] ∨ u.host ≠ [] then str "//" ++ u.host else [])
    ++ (let p := escapedPath u
        (if p ≠ [] ∧ p.head? ≠ some '/' ∧ u.host ≠ [] then str "/" else []) ++ p)
    ++ (if u.rawQuery ≠ [] then str "?" ++ u.rawQuery else [])

/-- The parts of an incoming http.Request that redirectHTTP reads: whether
the connection carried TLS (`r.TLS != nil`), the Host header, and the parsed
request URL. -/
structure Request where
  tls : Bool
  host : Str
  url : URL
  deriving DecidableEq, Repr

/-- One write the redirect handler performs on the ResponseWriter: an
http.Error (status and message) or an http.Redirect (status and Location). -/
inductive RespAction where
  | httpError (code : Nat) (msg : Str)
  | redirect (code : Nat) (location : Str)
  deriving DecidableEq, Repr

/-- redirectHTTP (main.go lines 189-198) as the sequence of response writes
it performs: a 404 "not found" when the request carried TLS or has an empty
host, and then — with no early return — always the 302 redirect to the
request URL with host replaced by PublicTLSAddress and scheme by https. -/
def redirectHTTP (cfg : Config) (r : Request) : List RespAction :=
  (if r.tls = true ∨ r.host = [] then [.httpError 404 (str "not found")] else [])
    ++ [.redirect 302
      (urlString { r.url with host := cfg.PublicTLSAddress, scheme := str "https" })]

/-- The command-line/environment values `setup` (main.go lines 136-161)
reads from the cli context. -/
structure Flags where
  importPrefix : Str
  vcs : Str
  repoRoot : Str
  redirectURL : Str
  listenAddress : Str
  tlsListenAddress : Str
  publicTLSAddress : Str
  cacheFile : Str
  email : Str
  noTLS : Bool
  deriving DecidableEq, Repr

/-- The config value `setup` builds from the flags (main.go lines 137-146). -/
def configOf (f : Flags) : Config :=
  { ImportPrefix := f.importPrefix
    VCS := f.vcs
    RepoRoot := f.repoRoot
    RedirectURL := f.redirectURL
    ListenAddress := f.listenAddress
    TLSListenAddress := f.tlsListenAddress
    PublicTLSAddress := f.publicTLSAddress
    TLS := !f.noTLS }

/-- A call `setup` makes on the letsencrypt manager collaborator. -/
inductive SetupCall where
  | cacheFile (path : Str)
  | register (email : Str)
  deriving DecidableEq, Repr

/-- setup (main.go lines 136-161) as a function of the flags and of the
results the two manager calls would return (`none` for success): it yields
the error it returns, or the finalized config, together with the manager
calls it made.  In TLS mode it opens the certificate cache, returning its
error on failure, then registers exactly when the email is non-empty,
returning its error on failure; in non-TLS mode it makes no manager call. -/
def setup (f : Flags) (cacheRes registerRes : Option Str) :
    Except Str Config × List SetupCall :=
  let cfg := configOf f
  if cfg.TLS then
    match cacheRes with
    | some e => (.error e, [.cacheFile f.cacheFile])
    | none =>
      if 0 < f.email.length then
        match registerRes with
        | some e => (.error e, [.cacheFile f.cacheFile, .register f.email])
        | none => (.ok cfg, [.cacheFile f.cacheFile, .register f.email])
      else (.ok cfg, [.cacheFile f.cacheFile])
  else (.ok cfg, [])

/-- Which handler a listener serves. -/
inductive HandlerKind where
  | request
  | redirect
  deriving DecidableEq, Repr

/-- One listener the process bound: its address, the handler it serves and
whether it terminates TLS. -/
structure Binding where
  addr : Str
  hk : HandlerKind
  tls : Bool
  deriving DecidableEq, Repr

/-- The outcomes of the blocking network calls `run` makes, supplied as an
oracle: the result of net.Listen on ListenAddress in TLS mode, the error
http.Serve on that listener eventually returns, the error of the plain-mode
ListenAndServe, and the error serveHTTPS returns (`none` meaning the call is
still serving). -/
structure RunEnv where
  listen : Option Str
  plainServe : Option Str
  plainListenAndServe : Option Str
  tlsServe : Option Str
  deriving DecidableEq, Repr

/-- What a run of the server did: the listeners it bound, the error it
returned to main (which log.Fatal turns into process exit), and the errors
it only logged. -/
structure RunOutcome where
  binds : List Binding
  fatal : Option Str
  logged : List Str
  deriving DecidableEq, Repr

/-- run (main.go lines 163-187) plus serveHTTPS (lines 200-211): in non-TLS
mode it binds ListenAddress with the request handler and returns that
server's error.  In TLS mode it first calls net.Listen on ListenAddress and
returns its error on failure; on success the goroutine serves the redirect
handler there and only logs any error http.Serve returns, while serveHTTPS
binds TLSListenAddress with the request handler and its error is returned. -/
def run (cfg : Config) (env : RunEnv) : RunOutcome :=
  if cfg.TLS = false then
    { binds := [⟨cfg.ListenAddress, .request, false⟩]
      fatal := env.plainListenAndServe
      logged := [] }
  else
    match env.listen with
    | some e => { binds := [], fatal := some e, logged := [] }
    | none =>
      { binds := [⟨cfg.ListenAddress, .redirect, false⟩,
          ⟨cfg.TLSListenAddress, .request, true⟩]
        fatal := env.tlsServe
        logged := env.plainServe.toList }

/-- main (main.go lines 130-134) composed with the cli library's contract
that `app.Before` runs before `app.Action`: a setup error is fatal and no
listener starts; otherwise `run` proceeds on the finalized config. -/
def mainFlow (f : Flags) (cacheRes registerRes : Option Str) (env : RunEnv) :
    RunOutcome :=
  match setup f cacheRes registerRes with
  | (.error e, _) => { binds := [], fatal := some e, logged := [] }
  | (.ok cfg, _) => run cfg env

/-- Decoder for the HTML attribute encoding: maps the entities the attribute
escaper emits back to their characters and leaves every other character
alone, recovering the semantic value of a rendered attribute. -/
def htmlUnesc : Str → Str
  | [] => []
  | '&' :: '#' :: '3' :: '4' :: ';' :: r => '"' :: htmlUnesc r
  | '&' :: '#' :: '3' :: '9' :: ';' :: r => Char.ofNat 39 :: htmlUnesc r
  | '&' :: 'a' :: 'm' :: 'p' :: ';' :: r => '&' :: htmlUnesc r
  | '&' :: 'l' :: 't' :: ';' :: r => '<' :: htmlUnesc r
  | '&' :: 'g' :: 't' :: ';' :: r => '>' :: htmlUnesc r
  | c :: rest => c :: htmlUnesc rest

/-- The characters the attribute escaper does not pass through verbatim. -/
def htmlSpecial (c : Char) : Bool :=
  c = Char.ofNat 0 || c = '"' || c = '&' || c = Char.ofNat 39 || c = '<' || c = '>'

/-- The example configuration of the specification (section 8), with TLS
enabled and the default addresses. -/
def cfgEx : Config :=
  { ImportPrefix := str "example.com"
    VCS := str "git"
    RepoRoot := str "https://github.com/me"
    RedirectURL := str ""
    ListenAddress := str "[::1]:80"
    TLSListenAddress := str "[::1]:443"
    PublicTLSAddress := str "pub.example.com"
    TLS := true }

/-- The example configuration with the RedirectURL override set. -/
def cfgOverride : Config :=
  { cfgEx with RedirectURL := str "https://browse.example.com" }

/-- The example configuration with TLS disabled. -/
def cfgPlain : Config := { cfgEx with TLS := false }

/-- A plaintext request for `/foo?x=1` from host `h`. -/
def reqPlain : Request :=
  { tls := false
    host := str "h"
    url := { scheme := []
             host := []
             path := str "/foo"
             rawPath := []
             rawQuery := str "x=1" } }

/-- A request that already arrived over TLS. -/
def reqOverTLS : Request := { reqPlain with tls := true }

/-- Run-call outcomes where net.Listen on the plaintext address fails. -/
def envBindFail : RunEnv :=
  { listen := some (str "listen tcp :80: bind: address already in use")
    plainServe := none
    plainListenAndServe := none
    tlsServe := none }

/-- Run-call outcomes where the plaintext listener's http.Serve fails and
serveHTTPS later returns an error. -/
def envServeFail : RunEnv :=
  { listen := none
    plainServe := some (str "accept: connection reset")
    plainListenAndServe := none
    tlsServe := some (str "tls: handshake failure") }

/-- Flags matching the example configuration, with an operator email. -/
def flagsEx : Flags :=
  { importPrefix := str "example.com"
    vcs := str "git"
    repoRoot := str "https://github.com/me"
    redirectURL := str ""
    listenAddress := str "[::1]:80"
    tlsListenAddress := str "[::1]:443"
    publicTLSAddress := str "pub.example.com"
    cacheFile := str "letsencrypt.cache"
    email := str "op@example.com"
    noTLS := false }

/-! Helper lemmas about the escaping functions and path splitting. -/

/-- The attribute escaper acts character by character. -/
theorem attrEsc_cons (c : Char) (s : Str) :
    attrEsc (c :: s) = attrEscChar c ++ attrEsc s := by
  simp [attrEsc]

/-- The attribute escaper is a homomorphism for concatenation. -/
theorem attrEsc_append (a b : Str) :
    attrEsc (a ++ b) = attrEsc a ++ attrEsc b := by
  simp [attrEsc]

/-- The entity decoder passes a character other than `&` straight through. -/
theorem htmlUnesc_cons_ne (c : Char) (rest : Str) (h : c ≠ '&') :
    htmlUnesc (c :: rest) = c :: htmlUnesc rest :=
  htmlUnesc.eq_7 c rest (fun _ hc _ => h hc) (fun _ hc _ => h hc) (fun _ hc _ => h hc)
    (fun _ hc _ => h hc) (fun _ hc _ => h hc)

/-- Decoding inverts the attribute escaper on NUL-free strings (the escaper
maps NUL to U+FFFD, which does not decode back). -/
theorem htmlUnesc_attrEsc (s : Str) (h : Char.ofNat 0 ∉ s) :
    htmlUnesc (attrEsc s) = s := by
  induction s with
  | nil => rfl
  | cons c t ih =>
    have h0 : c ≠ Char.ofNat 0 := fun hc => h (by simp [hc])
    have ht : Char.ofNat 0 ∉ t := fun hm => h (List.mem_cons_of_mem _ hm)
    rw [attrEsc_cons]
    by_cases h1 : c = '"'
    · subst h1
      rw [show attrEscChar '"' = str "&#34;" from by decide]
      show htmlUnesc ('&' :: '#' :: '3' :: '4' :: ';' :: attrEsc t) = _
      rw [htmlUnesc, ih ht]
    · by_cases h2 : c = '&'
      · subst h2
        rw [show attrEscChar '&' = str "&amp;" from by decide]
        show htmlUnesc ('&' :: 'a' :: 'm' :: 'p' :: ';' :: attrEsc t) = _
        rw [htmlUnesc, ih ht]
      · by_cases h3 : c = Char.ofNat 39
        · subst h3
          rw [show attrEscChar (Char.ofNat 39) = str "&#39;" from by decide]
          show htmlUnesc ('&' :: '#' :: '3' :: '9' :: ';' :: attrEsc t) = _
          rw [htmlUnesc, ih ht]
        · by_cases h4 : c = '<'
          · subst h4
            rw [show attrEscChar '<' = str "&lt;" from by decide]
            show htmlUnesc ('&' :: 'l' :: 't' :: ';' :: attrEsc t) = _
            rw [htmlUnesc, ih ht]
          · by_cases h5 : c = '>'
            · subst h5
              rw [show attrEscChar '>' = str "&gt;" from by decide]
              show htmlUnesc ('&' :: 'g' :: 't' :: ';' :: attrEsc t) = _
              rw [htmlUnesc, ih ht]
            · rw [show attrEscChar c = [c] from by
                simp [attrEscChar, h0, h1, h2, h3, h4, h5]]
              rw [List.singleton_append, htmlUnesc_cons_ne c _ h2, ih ht]


theorem one_le_attrEscChar_length (c : Char) : 1 ≤ (attrEscChar c).length := by
  unfold attrEscChar
  split_ifs <;> first | decide | simp

theorem attrEsc_length_ge (s : Str) : s.length ≤ (attrEsc s).length := by
  induction s with
  | nil => simp [attrEsc]
  | cons c t ih =>
    rw [attrEsc_cons, List.length_append, List.length_cons]
    have := one_le_attrEscChar_length c
    omega

theorem attrEsc_eq_self (s : Str) (h : ∀ c ∈ s, htmlSpecial c = false) :
    attrEsc s = s := by
  induction s with
  | nil => rfl
  | cons c t ih =>
    have hc := h c (List.mem_cons_self c t)
    simp [htmlSpecial] at hc
    obtain ⟨⟨⟨⟨⟨n0, n1⟩, n2⟩, n3⟩, n4⟩, n5⟩ := hc
    rw [attrEsc_cons,
      show attrEscChar c = [c] from by simp [attrEscChar, n0, n1, n2, n3, n4, n5],
      List.singleton_append, ih fun d hd => h d (List.mem_cons_of_mem _ hd)]

theorem attrEsc_ne_self (s : Str) (c : Char) (hc : c ∈ s)
    (hsp : c = '"' ∨ c = '<' ∨ c = '&') : attrEsc s ≠ s := by
  have key : ∀ u : Str, c ∈ u → u.length < (attrEsc u).length := by
    intro u hu
    induction u with
    | nil => cases hu
    | cons d t ih =>
      rw [attrEsc_cons, List.length_append, List.length_cons]
      have h1 := one_le_attrEscChar_length d
      have h2 := attrEsc_length_ge t
      rcases List.mem_cons.mp hu with he | hm
      · have h4 : 4 ≤ (attrEscChar d).length := by
          rw [← he]
          rcases hsp with h | h | h <;> subst h <;> decide
        omega
      · have := ih hm
        omega
  intro heq
  have := key s hc
  rw [heq] at this
  omega

theorem splitOn_slash_cons (t : Str) :
    ('/' :: t).splitOn '/' = [] :: t.splitOn '/' := by
  simp [List.splitOn, List.splitOnP_cons]

theorem splitOn_fst (t : Str) :
    ∃ r, t.splitOn '/' = (t.takeWhile fun c => !(c == '/')) :: r := by
  induction t with
  | nil => exact ⟨[], rfl⟩
  | cons c u ih =>
    obtain ⟨r, hr⟩ := ih
    simp [List.splitOn] at hr
    by_cases h : c = '/'
    · subst h
      exact ⟨u.splitOn '/', by simp [List.splitOn, List.splitOnP_cons, List.takeWhile_cons]⟩
    · refine ⟨r, ?_⟩
      have hb : (c == '/') = false := by simp [h]
      simp [List.splitOn, List.splitOnP_cons, hb, List.takeWhile_cons, hr]

theorem handlerContext_of_split (cfg : Config) (path pkg : Str) (rest : List Str)
    (hsplit : path.splitOn '/' = [] :: pkg :: rest) :
    handlerContext cfg path =
      { cfg := cfg
        RepoName := pkg
        RedirectURL :=
          if cfg.RedirectURL.length = 0 then cfg.RepoRoot ++ str "/" ++ pkg
          else cfg.RedirectURL } := by
  unfold handlerContext
  rw [hsplit]
  simp

theorem handlerContext_repoName (cfg : Config) (path : Str) :
    (handlerContext cfg path).RepoName = (path.splitOn '/').getD 1 [] := by
  unfold handlerContext
  by_cases h : 1 < (path.splitOn '/').length
  · simp [h, List.getD, List.getElem?_eq_getElem]
  · simp [h, List.getD, List.getElem?_eq_none (by omega : (path.splitOn '/').length ≤ 1)]

theorem escapePath_eq_self (s : Str) (h : ∀ c ∈ s, shouldEscapePath c = false) :
    escapePath s = s := by
  induction s with
  | nil => rfl
  | cons c t ih =>
    have hc := h c (List.mem_cons_self c t)
    have ht := ih fun d hd => h d (List.mem_cons_of_mem _ hd)
    simp only [escapePath, List.map_cons, List.flatten_cons, hc] at ht ⊢
    simp [ht]



/-- The context always carries the configuration unchanged. -/
theorem handlerContext_cfg (cfg : Config) (path : Str) :
    (handlerContext cfg path).cfg = cfg := by
  unfold handlerContext
  by_cases h : 1 < (path.splitOn '/').length <;> simp [h]

/-- Claim C5: when the configured RedirectURL is non-empty, the handler uses
that literal value as the refresh meta target and the fallback link target
for every request, regardless of the request path and package name. -/
theorem redirect_url_override (cfg : Config) (path : Str)
    (h : cfg.RedirectURL ≠ []) :
    (handlerContext cfg path).RedirectURL = cfg.RedirectURL ∧
    (handler cfg path).body =
      tplSeg1 ++ goImportRendered (handlerContext cfg path) ++ tplSeg2
        ++ attrEsc cfg.RedirectURL ++ tplSeg3 ++ urlAttrEsc cfg.RedirectURL
        ++ tplSeg4 := by
  have h1 : (handlerContext cfg path).RedirectURL = cfg.RedirectURL := by
    unfold handlerContext
    by_cases hl : 1 < (path.splitOn '/').length
    · simp [hl, List.length_eq_zero, h]
    · simp [hl]
  exact ⟨h1, by simp [handler, renderBody, h1]⟩

theorem redirect_url_override_witness :
    (handlerContext cfgOverride (str "/foo")).RedirectURL = cfgOverride.RedirectURL :=
  (redirect_url_override cfgOverride (str "/foo") (by decide)).1

/-- Claim C6: when the configured RedirectURL is empty, for every request
path beginning with a slash the resolved redirect target is
RepoRoot + "/" + pkg where pkg is the first path segment, and the refresh
meta tag and fallback link render that target. -/
theorem redirect_url_from_repo_root (cfg : Config) (t : Str)
    (hre : cfg.RedirectURL = []) :
    (handlerContext cfg ('/' :: t)).RedirectURL =
      cfg.RepoRoot ++ str "/" ++ (t.takeWhile fun c => !(c == '/')) ∧
    (handler cfg ('/' :: t)).body =
      tplSeg1 ++ goImportRendered (handlerContext cfg ('/' :: t)) ++ tplSeg2
        ++ attrEsc (cfg.RepoRoot ++ str "/" ++ (t.takeWhile fun c => !(c == '/')))
        ++ tplSeg3
        ++ urlAttrEsc (cfg.RepoRoot ++ str "/" ++ (t.takeWhile fun c => !(c == '/')))
        ++ tplSeg4 := by
  obtain ⟨r, hr⟩ := splitOn_fst t
  have hsplit : ('/' :: t).splitOn '/' =
      [] :: (t.takeWhile fun c => !(c == '/')) :: r := by
    rw [splitOn_slash_cons, hr]
  have hctx := handlerContext_of_split cfg ('/' :: t) _ r hsplit
  have h1 : (handlerContext cfg ('/' :: t)).RedirectURL =
      cfg.RepoRoot ++ str "/" ++ (t.takeWhile fun c => !(c == '/')) := by
    rw [hctx]
    simp [hre]
  exact ⟨h1, by simp [handler, renderBody, h1]⟩

theorem redirect_url_from_repo_root_witness :
    (handlerContext cfgEx ('/' :: str "foo")).RedirectURL =
      cfgEx.RepoRoot ++ str "/" ++ ((str "foo").takeWhile fun c => !(c == '/')) :=
  (redirect_url_from_repo_root cfgEx (str "foo") rfl).1

/-- Claim C7: the package name is derived by splitting the path on slashes —
it is the entry after the first slash — and a root request gets an empty
package name while the meta tag is still rendered with an empty package
component, with no guard or error. -/
theorem package_name_derivation (cfg : Config) :
    (∀ path : Str,
      (handlerContext cfg path).RepoName = (path.splitOn '/').getD 1 []) ∧
    (∀ t : Str,
      (handlerContext cfg ('/' :: t)).RepoName = t.takeWhile fun c => !(c == '/')) ∧
    (handlerContext cfg (str "/")).RepoName = [] ∧
    (handler cfg (str "/")).body =
      tplSeg1 ++ attrEsc cfg.ImportPrefix ++ str "/" ++ attrEsc [] ++ str " "
        ++ attrEsc cfg.VCS ++ str " " ++ attrEsc cfg.RepoRoot ++ str "/"
        ++ attrEsc [] ++ tplSeg2
        ++ attrEsc (handlerContext cfg (str "/")).RedirectURL ++ tplSeg3
        ++ urlAttrEsc (handlerContext cfg (str "/")).RedirectURL ++ tplSeg4 := by
  have hA := handlerContext_repoName cfg
  have hB : ∀ t : Str,
      (handlerContext cfg ('/' :: t)).RepoName = t.takeWhile fun c => !(c == '/') := by
    intro t
    obtain ⟨r, hr⟩ := splitOn_fst t
    rw [hA, splitOn_slash_cons, hr]
    rfl
  have h0 : (handlerContext cfg (str "/")).RepoName = [] := by
    have := hB []
    simpa using this
  refine ⟨hA, hB, h0, ?_⟩
  simp [handler, renderBody, goImportRendered, h0, handlerContext_cfg]

/-- Claim C3: when the request already arrived over TLS or its host is
empty, the plaintext handler writes a 404 "not found" and still falls
through to the redirect logic — there is no early return. -/
theorem redirect_404_fallthrough (cfg : Config) (r : Request)
    (h : r.tls = true ∨ r.host = []) :
    redirectHTTP cfg r =
      [.httpError 404 (str "not found"),
        .redirect 302 (urlString
          { r.url with host := cfg.PublicTLSAddress, scheme := str "https" })] := by
  simp [redirectHTTP, h]

theorem redirect_404_fallthrough_witness :
    redirectHTTP cfgEx reqOverTLS =
      [.httpError 404 (str "not found"),
        .redirect 302 (urlString
          { reqOverTLS.url with host := cfgEx.PublicTLSAddress, scheme := str "https" })] :=
  redirect_404_fallthrough cfgEx reqOverTLS (Or.inl rfl)

/-- Claim C9: in plain mode exactly one listener starts, bound to
ListenAddress and serving the request handler; no listener is bound to
TLSListenAddress (when the two addresses differ) and the redirect handler is
never installed. -/
theorem plain_mode_single_listener (cfg : Config) (env : RunEnv)
    (h : cfg.TLS = false) :
    (run cfg env).binds = [⟨cfg.ListenAddress, HandlerKind.request, false⟩] ∧
    (∀ b ∈ (run cfg env).binds, b.hk = HandlerKind.request) ∧
    (cfg.TLSListenAddress ≠ cfg.ListenAddress →
      ∀ b ∈ (run cfg env).binds, b.addr ≠ cfg.TLSListenAddress) := by
  have hb : (run cfg env).binds = [⟨cfg.ListenAddress, HandlerKind.request, false⟩] := by
    simp [run, h]
  refine ⟨hb, ?_, ?_⟩
  · intro b hbm
    rw [hb, List.mem_singleton] at hbm
    subst hbm
    rfl
  · intro hne b hbm
    rw [hb, List.mem_singleton] at hbm
    subst hbm
    exact fun heq => hne heq.symm

theorem plain_mode_single_listener_witness :
    (run cfgPlain envServeFail).binds =
      [⟨cfgPlain.ListenAddress, HandlerKind.request, false⟩] :=
  (plain_mode_single_listener cfgPlain envServeFail rfl).1



/-- Claim C1: for a request path of the form /pkg/... with non-empty first
segment pkg and an empty RedirectURL override, the rendered body's go-import
meta content is the attribute encoding of
"ImportPrefix/pkg VCS RepoRoot/pkg", whose decoded attribute value is
exactly that string. -/
theorem goImport_meta_content (cfg : Config) (path pkg : Str) (rest : List Str)
    (hsplit : path.splitOn '/' = [] :: pkg :: rest) (_hpkg : pkg ≠ [])
    (_hre : cfg.RedirectURL = [])
    (hnul : Char.ofNat 0 ∉ cfg.ImportPrefix ++ str "/" ++ pkg ++ str " "
      ++ cfg.VCS ++ str " " ++ cfg.RepoRoot ++ str "/" ++ pkg) :
    (handler cfg path).body =
      tplSeg1
        ++ attrEsc (cfg.ImportPrefix ++ str "/" ++ pkg ++ str " " ++ cfg.VCS
          ++ str " " ++ cfg.RepoRoot ++ str "/" ++ pkg)
        ++ tplSeg2 ++ attrEsc (handlerContext cfg path).RedirectURL ++ tplSeg3
        ++ urlAttrEsc (handlerContext cfg path).RedirectURL ++ tplSeg4 ∧
    htmlUnesc (attrEsc (cfg.ImportPrefix ++ str "/" ++ pkg ++ str " " ++ cfg.VCS
        ++ str " " ++ cfg.RepoRoot ++ str "/" ++ pkg)) =
      cfg.ImportPrefix ++ str "/" ++ pkg ++ str " " ++ cfg.VCS ++ str " "
        ++ cfg.RepoRoot ++ str "/" ++ pkg := by
  have hctx := handlerContext_of_split cfg path pkg rest hsplit
  constructor
  · simp [handler, renderBody, goImportRendered, hctx, attrEsc_append,
      show attrEsc (str "/") = str "/" from by decide,
      show attrEsc (str " ") = str " " from by decide, List.append_assoc]
  · exact htmlUnesc_attrEsc _ hnul

theorem goImport_meta_content_witness :
    htmlUnesc (attrEsc (cfgEx.ImportPrefix ++ str "/" ++ str "foo" ++ str " "
        ++ cfgEx.VCS ++ str " " ++ cfgEx.RepoRoot ++ str "/" ++ str "foo")) =
      cfgEx.ImportPrefix ++ str "/" ++ str "foo" ++ str " " ++ cfgEx.VCS
        ++ str " " ++ cfgEx.RepoRoot ++ str "/" ++ str "foo" :=
  (goImport_meta_content cfgEx (str "/foo") (str "foo") [] (by decide)
    (by decide) rfl (by decide)).2

/-- Claim C2: in TLS mode, the plaintext redirect handler answers a
plaintext request (no TLS, non-empty host) with a single 302 whose Location
keeps the request's path and query and rewrites the scheme to https and the
host to PublicTLSAddress; stated for paths that net/url does not re-escape
(no RawPath and no character escapePath would encode). -/
theorem redirect_plain_to_tls (cfg : Config) (r : Request)
    (h1 : r.tls = false) (h2 : r.host ≠ [])
    (h3 : r.url.rawPath = [])
    (h4 : ∀ c ∈ r.url.path, shouldEscapePath c = false)
    (h5 : r.url.path.head? = some '/') :
    redirectHTTP cfg r =
      [.redirect 302 (str "https://" ++ cfg.PublicTLSAddress ++ r.url.path
        ++ (if r.url.rawQuery ≠ [] then str "?" ++ r.url.rawQuery else []))] := by
  have hcond : ¬(r.tls = true ∨ r.host = []) := by
    intro hor
    rcases hor with ht | hh
    · rw [h1] at ht
      cases ht
    · exact h2 hh
  have hep : escapedPath
      { r.url with host := cfg.PublicTLSAddress, scheme := str "https" } = r.url.path := by
    unfold escapedPath
    rw [if_neg, if_neg]
    · exact escapePath_eq_self _ h4
    · intro hstar
      simp only at hstar
      rw [hstar] at h5
      exact absurd h5 (by decide)
    · intro hx
      exact hx.1 (by simp [h3])
  have hpne : r.url.path ≠ [] := by
    intro hnil
    rw [hnil] at h5
    cases h5
  unfold redirectHTTP
  rw [if_neg hcond, List.nil_append]
  unfold urlString
  simp only [hep]
  rw [if_pos (by decide : (str "https" : Str) ≠ []),
    if_pos (Or.inl (by decide : (str "https" : Str) ≠ [])),
    if_neg (by
      intro hx
      exact hx.2.1 h5)]
  rw [List.nil_append,
    show ∀ x : Str, str "https" ++ str ":" ++ (str "//" ++ x) = str "https://" ++ x
      from fun x => rfl]

theorem redirect_plain_to_tls_witness :
    redirectHTTP cfgEx reqPlain =
      [.redirect 302 (str "https://" ++ cfgEx.PublicTLSAddress ++ reqPlain.url.path
        ++ (if reqPlain.url.rawQuery ≠ [] then str "?" ++ reqPlain.url.rawQuery
            else []))] :=
  redirect_plain_to_tls cfgEx reqPlain rfl (by decide) rfl (by decide) rfl



/-- Claim C4 counterexample: in TLS mode a bind failure of the plaintext
listener (net.Listen returning an error) is returned as a fatal error and is
not logged — the claim that any plaintext-listener failure is logged only
and never terminates the process is false at this input. -/
theorem run_bind_failure_fatal :
    (run cfgEx envBindFail).fatal =
      some (str "listen tcp :80: bind: address already in use") ∧
    (run cfgEx envBindFail).logged = [] := by decide

/-- Claim C4 (amended): in TLS mode, once the plaintext listener is bound,
a failure while serving it is logged only and the fatal outcome is the TLS
listener's alone; but a failure to bind the plaintext listener propagates as
a fatal error and stops both listeners. -/
theorem run_listener_error_policy (cfg : Config) (env : RunEnv)
    (hT : cfg.TLS = true) :
    (env.listen = none →
      (run cfg env).fatal = env.tlsServe ∧
      (run cfg env).logged = env.plainServe.toList) ∧
    (∀ e, env.listen = some e →
      run cfg env = { binds := [], fatal := some e, logged := [] }) := by
  constructor
  · intro hl
    simp [run, hT, hl]
  · intro e hl
    simp [run, hT, hl]

theorem run_listener_error_policy_witness :
    (run cfgEx envServeFail).fatal = some (str "tls: handshake failure") ∧
    (run cfgEx envServeFail).logged = [str "accept: connection reset"] :=
  (run_listener_error_policy cfgEx envServeFail rfl).1 rfl

/-- Claim C8: in TLS mode the certificate cache is opened before any
listener starts and its failure is fatal; the registration call happens
exactly when the email is non-empty and its failure is fatal; in non-TLS
mode neither manager call is attempted. -/
theorem setup_sequence (f : Flags) (cr rr : Option Str) :
    (f.noTLS = true → setup f cr rr = (.ok (configOf f), [])) ∧
    (f.noTLS = false → ∀ e, cr = some e →
      setup f cr rr = (.error e, [.cacheFile f.cacheFile]) ∧
      ∀ env, mainFlow f cr rr env = { binds := [], fatal := some e, logged := [] }) ∧
    (f.noTLS = false → cr = none →
      (SetupCall.register f.email ∈ (setup f cr rr).2 ↔ f.email ≠ [])) ∧
    (f.noTLS = false → cr = none → f.email ≠ [] → ∀ e, rr = some e →
      (setup f cr rr).1 = .error e ∧ ∀ env, (mainFlow f cr rr env).binds = []) := by
  refine ⟨?_, ?_, ?_, ?_⟩
  · intro hT
    simp [setup, configOf, hT]
  · intro hT e hcr
    have hs : setup f cr rr = (.error e, [.cacheFile f.cacheFile]) := by
      simp [setup, configOf, hT, hcr]
    exact ⟨hs, fun env => by simp [mainFlow, hs]⟩
  · intro hT hcr
    by_cases he : 0 < f.email.length
    · cases rr <;>
        simp [setup, configOf, hT, hcr, he, List.ne_nil_of_length_pos he]
    · have hee : f.email = [] := by
        cases hfe : f.email with
        | nil => rfl
        | cons a l =>
          rw [hfe] at he
          simp at he
      simp [setup, configOf, hT, hcr, he, hee]
  · intro hT hcr hne e hrr
    have he : 0 < f.email.length := List.length_pos.mpr hne
    have hs : setup f cr rr = (.error e, [.cacheFile f.cacheFile, .register f.email]) := by
      simp [setup, configOf, hT, hcr, he, hrr]
    refine ⟨by simp [hs], fun env => by simp [mainFlow, hs]⟩

theorem setup_sequence_witness :
    SetupCall.register flagsEx.email ∈ (setup flagsEx none none).2 ↔
      flagsEx.email ≠ [] :=
  (setup_sequence flagsEx none none).2.2.1 rfl rfl

/-- Claim C10: every interpolated value reaches the output through the
template engine's escapers — the meta contents attribute-escaped and the
link target URL-filtered, URL-normalized and attribute-escaped — escaping is
the identity exactly on strings free of HTML-special characters, and a
string containing a double quote, a less-than sign or an ampersand never
renders as itself. -/
theorem template_escaping :
    (∀ ctx : RequestContext,
      renderBody ctx =
        tplSeg1 ++ attrEsc ctx.cfg.ImportPrefix ++ str "/" ++ attrEsc ctx.RepoName
          ++ str " " ++ attrEsc ctx.cfg.VCS ++ str " " ++ attrEsc ctx.cfg.RepoRoot
          ++ str "/" ++ attrEsc ctx.RepoName ++ tplSeg2 ++ attrEsc ctx.RedirectURL
          ++ tplSeg3 ++ attrEsc (urlNormalize (urlFilter ctx.RedirectURL))
          ++ tplSeg4) ∧
    (∀ s : Str, (∀ c ∈ s, htmlSpecial c = false) → attrEsc s = s) ∧
    (∀ s : Str, ∀ c ∈ s, (c = '"' ∨ c = '<' ∨ c = '&') → attrEsc s ≠ s) := by
  refine ⟨?_, attrEsc_eq_self, attrEsc_ne_self⟩
  intro ctx
  simp [renderBody, goImportRendered, urlAttrEsc, List.append_assoc]

theorem template_escaping_witness :
    attrEsc (str "me") = str "me" ∧ attrEsc (str "a&b") ≠ str "a&b" :=
  ⟨template_escaping.2.1 (str "me") (by decide),
    template_escaping.2.2 (str "a&b") '&' (by decide) (Or.inr (Or.inr rfl))⟩


end Gopkgredir
